import Mathlib

/-!
Verification of the dashboard-data pipeline in
`src/app/api/dashboard-data/route.ts`: the stage-to-status classifier,
the ticket aggregator `generateDashboardStats`, the chart builder
`generateCharts`, and the `GET` handler around the HubSpot fetch.

Host-runtime primitives the route relies on (the `Date` constructor on ISO
`YYYY-MM-DD` strings, `parseFloat`, plain-object property reads and writes
falling through to the `Object.prototype` chain, JS object key enumeration
order, the stable `Array.prototype.sort`) are modelled explicitly below;
every other definition is a direct translation of the route's code.
-/

deriving instance DecidableEq for Except

namespace Dashboard

/-! ## Calendar arithmetic (model of the host `Date`) -/

def msPerDay : Int := 86400000

/-- 365.25 days in milliseconds, the year length used at line 365. -/
def msPerYear : Int := 31557600000

def isLeapYear (y : Nat) : Bool :=
  (y % 4 == 0 && y % 100 != 0) || (y % 400 == 0)

def daysInMonth (y m : Nat) : Nat :=
  if m == 2 then (if isLeapYear y then 29 else 28)
  else if m == 4 || m == 6 || m == 9 || m == 11 then 30
  else 31

/-- Days since 1970-01-01 of the civil date `y-m-d` (proleptic Gregorian,
valid for `y ≥ 1`). -/
def civilToEpochDay (y m d : Nat) : Int :=
  let yAdj := if m ≤ 2 then y - 1 else y
  let era := yAdj / 400
  let yoe := yAdj % 400
  let mp := (m + 9) % 12
  let doy := (153 * mp + 2) / 5 + d - 1
  let doe := yoe * 365 + yoe / 4 - yoe / 100 + doy
  (era * 146097 + doe : Int) - 719468

/-- Inverse of `civilToEpochDay` (valid for days at year 1 or later). -/
def epochDayToCivil (day : Int) : Nat × Nat × Nat :=
  let z := (day + 719468).toNat
  let era := z / 146097
  let doe := z % 146097
  let yoe := (doe - doe / 1460 + doe / 36524 - doe / 146096) / 365
  let y := yoe + era * 400
  let doy := doe - (365 * yoe + yoe / 4 - yoe / 100)
  let mp := (5 * doy + 2) / 153
  let d := doy - (153 * mp + 2) / 5 + 1
  let m := if mp < 10 then mp + 3 else mp - 9
  (if m ≤ 2 then y + 1 else y, m, d)

def digitVal (c : Char) : Nat := c.toNat - 48

/-- Model of the host `Date` constructor on the ISO calendar-date grammar
`YYYY-MM-DD`: a calendar-valid date string yields its UTC-midnight time
value in epoch milliseconds; any other string yields the invalid date,
modelled as `none` (a NaN time value). -/
def parseJsDate (s : String) : Option Int :=
  match s.toList with
  | [y1, y2, y3, y4, '-', m1, m2, '-', d1, d2] =>
    if y1.isDigit && y2.isDigit && y3.isDigit && y4.isDigit &&
        m1.isDigit && m2.isDigit && d1.isDigit && d2.isDigit then
      let y := 1000 * digitVal y1 + 100 * digitVal y2 + 10 * digitVal y3 + digitVal y4
      let m := 10 * digitVal m1 + digitVal m2
      let d := 10 * digitVal d1 + digitVal d2
      if 1 ≤ y && 1 ≤ m && m ≤ 12 && 1 ≤ d && d ≤ daysInMonth y m then
        some (civilToEpochDay y m d * msPerDay)
      else none
    else none
  | _ => none

def pad2 (n : Nat) : String :=
  if n < 10 then "0" ++ toString n else toString n

def pad4 (n : Nat) : String :=
  if n < 10 then "000" ++ toString n
  else if n < 100 then "00" ++ toString n
  else if n < 1000 then "0" ++ toString n
  else toString n

/-- Model of `date.toISOString().split('T')[0]` on a valid date value: the
calendar day of the timestamp rendered as `YYYY-MM-DD` (line 304). -/
def formatISODate (ms : Int) : String :=
  let c := epochDayToCivil (Int.fdiv ms msPerDay)
  pad4 c.1 ++ "-" ++ pad2 c.2.1 ++ "-" ++ pad2 c.2.2

def takeDigits : List Char → List Char × List Char
  | [] => ([], [])
  | c :: cs =>
    if c.isDigit then
      let r := takeDigits cs
      (c :: r.1, r.2)
    else ([], c :: cs)

def digitsToNat (ds : List Char) : Nat :=
  ds.foldl (fun a c => 10 * a + digitVal c) 0

/-- Model of the host `parseFloat` on decimal literals: an optional sign
followed by `digits[.digits]`; the longest such prefix is the value and the
rest of the string is ignored; when no digit occurs the result is NaN,
modelled as `none`. The numeric value is kept exact, as a rational. -/
def parseJsFloat (s : String) : Option ℚ :=
  let cs := s.toList
  let signed : Bool × List Char :=
    match cs with
    | '-' :: rest => (true, rest)
    | '+' :: rest => (false, rest)
    | _ => (false, cs)
  let ip := takeDigits signed.2
  let fp : List Char :=
    match ip.2 with
    | '.' :: rest => (takeDigits rest).1
    | _ => []
  if ip.1.isEmpty && fp.isEmpty then none
  else
    let mag : ℚ := (digitsToNat ip.1 : ℚ) + (digitsToNat fp : ℚ) / ((10 : ℚ) ^ fp.length)
    some (if signed.1 then -mag else mag)

/-! ## Data model (route.ts lines 10-53) -/

/-- A JS value as observed on a ticket's `status`: normally a string, but a
dynamic read of a plain-object property can also yield a member inherited
from `Object.prototype` — `.inherited name` stands for that value (the
built-in function named `name`, or the prototype object itself for
`__proto__`). All inherited members are truthy and none is equal (by `===`)
to any string. -/
inductive JsValue where
  | str (s : String)
  | inherited (name : String)
deriving DecidableEq

/-- The property keys every plain object literal inherits from
`Object.prototype` (ECMA-262, including the Annex B accessors): a dynamic
read of one of these on `{}` yields a truthy non-string value. -/
def protoProps : List String :=
  ["constructor", "hasOwnProperty", "isPrototypeOf", "propertyIsEnumerable",
   "toLocaleString", "toString", "valueOf", "__proto__",
   "__defineGetter__", "__defineSetter__", "__lookupGetter__", "__lookupSetter__"]

/-- The value stored under one key of the `serviceCounts` record. Normally
a number; but when the first read of the key hit an inherited function,
`fn + 1` is a string concatenation, and each further occurrence appends
another `"1"`: `.strVal name k` stands for the string
`String(Object.prototype[name])` followed by `k` ones. -/
inductive TallyValue where
  | num (n : Nat)
  | strVal (name : String) (ones : Nat)
deriving DecidableEq

/-- One more occurrence of a key: `n + 1` on a number, one more
concatenated `"1"` on a string. -/
def bumpTally : TallyValue → TallyValue
  | TallyValue.num n => TallyValue.num (n + 1)
  | TallyValue.strVal name k => TallyValue.strVal name (k + 1)

/-- The property bag of a raw HubSpot ticket; only the fields the
aggregation and chart code reads are kept. -/
structure RawProperties where
  hs_pipeline_stage : Option String
  createdate : Option String
  service_provided : Option String
  crisis_wish : Option String
  birthday : Option String
deriving DecidableEq

structure Ticket where
  status : JsValue
  created_at : Option String
  properties : RawProperties
deriving DecidableEq

structure DashboardStats where
  open_tickets : Nat
  new_tickets_this_week : Nat
  osw_count : Nat
  staffmark_count : Nat
  closed_tickets : Nat
deriving DecidableEq

/-! ## Status classification (lines 56-73) -/

def stageMapping : List (String × String) :=
  [("1", "NEW"), ("2", "BACKLOG"), ("3", "RESOURCE_SUPPORT"), ("4", "CLOSED"),
   ("257285392", "WAITING_FOR_RESPONSE"), ("257285393", "COMPLETED"),
   ("1686843097", "IN_PROCESS_STAFFMARK"), ("1687677633", "EMPLOYMENT_SUPPORT"),
   ("999098012", "IN_PROCESS_OSW"), ("1746656967", "ARCHIVED")]

/-- Line 56-73. `!stageId` is true for an absent stage and for the empty
string (both are falsy); otherwise `stageMapping[stageId]` is a plain-object
read that falls through to the prototype chain: a table code yields its
label, a prototype-named code (`toString`, `__proto__`, …) yields the
inherited truthy value — short-circuiting the `||` — and only any other
code reaches the synthetic `STAGE_` label. -/
def getStatusFromStage (stageId : Option String) : JsValue :=
  match stageId with
  | none => JsValue.str ("UNKNOWN")
  | some s =>
    if s = "" then JsValue.str ("UNKNOWN")
    else
      match stageMapping.find? (fun p => p.1 = s) with
      | some p => JsValue.str p.2
      | none =>
        if s ∈ protoProps then JsValue.inherited s
        else JsValue.str ("STAGE_" ++ s)

/-- Lines 118-123: the fetch loop turns each raw record into the ticket
shape consumed downstream. -/
def transform (p : RawProperties) : Ticket :=
  { status := getStatusFromStage p.hs_pipeline_stage
    created_at := p.createdate
    properties := p }

/-! ## Ticket aggregator (lines 142-182) -/

def openStatuses : List String :=
  ["NEW", "BACKLOG", "RESOURCE_SUPPORT", "EMPLOYMENT_SUPPORT",
   "IN_PROCESS_STAFFMARK", "IN_PROCESS_OSW", "WAITING_FOR_RESPONSE"]

def closedStatuses : List String := ["CLOSED", "COMPLETED", "ARCHIVED"]

/-- `Array.prototype.includes` with `===` semantics: a non-string status
value never equals any label. -/
def jsIncludes (l : List String) (v : JsValue) : Bool :=
  l.any (fun s => v == JsValue.str s)

/-- `getDay` of the host `Date`: day of week with Sunday = 0; epoch day 0
(1970-01-01) was a Thursday. -/
def jsGetDay (epochDay : Int) : Int := (epochDay + 4).emod 7

/-- Lines 164-167: today's date shifted back by `getDay` days with the
time of day cleared (the model fixes the local zone at UTC). -/
def startOfWeekMs (nowMs : Int) : Int :=
  let today := Int.fdiv nowMs msPerDay
  (today - jsGetDay today) * msPerDay

/-- The filter body at lines 169-173: a missing or empty `created_at` is
falsy and excluded; otherwise `new Date(created_at) >= startOfWeek`, which
is false for an invalid date (NaN comparison). -/
def jsCreatedOnOrAfter (t : Ticket) (startOfWeek : Int) : Bool :=
  match t.created_at with
  | none => false
  | some s =>
    if s = "" then false
    else
      match parseJsDate s with
      | some d => startOfWeek ≤ d
      | none => false

def generateDashboardStats (nowMs : Int) (tickets : List Ticket) : DashboardStats :=
  if tickets.isEmpty then
    { open_tickets := 0, new_tickets_this_week := 0, osw_count := 0,
      staffmark_count := 0, closed_tickets := 0 }
  else
    { open_tickets := (tickets.filter (fun t => jsIncludes openStatuses t.status)).length
      new_tickets_this_week :=
        (tickets.filter (fun t => jsCreatedOnOrAfter t (startOfWeekMs nowMs))).length
      osw_count :=
        (tickets.filter (fun t => t.status == JsValue.str ("IN_PROCESS_OSW"))).length
      staffmark_count :=
        (tickets.filter (fun t => t.status == JsValue.str ("IN_PROCESS_STAFFMARK"))).length
      closed_tickets := (tickets.filter (fun t => jsIncludes closedStatuses t.status)).length }

/-! ## Chart builder (lines 185-451) -/

/-- The guard at line 233: `service && service !== 'null' && service !== ''`.
Yields the grouping key of a ticket, or `none` when the ticket contributes
to no slice. -/
def admissibleService (t : Ticket) : Option String :=
  match t.properties.service_provided with
  | none => none
  | some s => if s ≠ "" && s ≠ "null" then some s else none

/-- Line 234, `serviceCounts[k] = (serviceCounts[k] || 0) + 1`, on a plain
object (own keys kept as an association list in creation order). Assigning
`__proto__` goes through the inherited setter and is a silent no-op (the
key is never an own property). An own key is bumped in place. A new
prototype-named key reads the inherited truthy function, so `fn + 1`
concatenates a string, which the assignment stores as the key's value. Any
other new key starts at the number 1. -/
def insertService (m : List (String × TallyValue)) (k : String) :
    List (String × TallyValue) :=
  if k = "__proto__" then m
  else if m.any (fun p => p.1 = k) then
    m.map (fun p => if p.1 = k then (p.1, bumpTally p.2) else p)
  else if k ∈ protoProps then m ++ [(k, TallyValue.strVal k 1)]
  else m ++ [(k, TallyValue.num 1)]

def serviceStep (m : List (String × TallyValue)) (t : Ticket) :
    List (String × TallyValue) :=
  match admissibleService t with
  | some s => insertService m s
  | none => m

/-- Lines 230-236: the `serviceCounts` record, kept as an association list
of its own properties in creation order. -/
def serviceCounts (tickets : List Ticket) : List (String × TallyValue) :=
  tickets.foldl serviceStep []

/-- A nonempty digit string with no leading zero (except `0` itself): the
canonical decimal form of a natural number. -/
def isCanonicalNat : List Char → Bool
  | [] => false
  | c :: rest => c.isDigit && (c != '0' || rest.isEmpty) && rest.all (fun d => d.isDigit)

/-- A string that is a JS array-index property key: the canonical decimal
form of an integer below 2^32 - 1. `Object.keys` lists such keys first. -/
def isArrayIndexKey (s : String) : Bool :=
  isCanonicalNat s.toList && digitsToNat s.toList < 4294967295

def arrayIndexVal (s : String) : Nat := digitsToNat s.toList

/-- `Object.keys`/`Object.values` enumeration order on a string-keyed
record: array-index keys first in ascending numeric order, then the
remaining keys in creation order (lines 240-241). -/
def jsObjectEntries {α : Type} (m : List (String × α)) : List (String × α) :=
  List.insertionSort (fun a b => arrayIndexVal a.1 ≤ arrayIndexVal b.1)
      (m.filter (fun p => isArrayIndexKey p.1))
    ++ m.filter (fun p => !(isArrayIndexKey p.1))

def serviceLabels (tickets : List Ticket) : List String :=
  (jsObjectEntries (serviceCounts tickets)).map Prod.fst

def serviceValues (tickets : List Ticket) : List TallyValue :=
  (jsObjectEntries (serviceCounts tickets)).map Prod.snd

/-- One entry of the `crisisData` array (line 272); `date` is the `Date`
built from `created_at`, with `none` modelling an invalid date. -/
structure CrisisItem where
  date : Option Int
  amount : ℚ
deriving DecidableEq

/-- Lines 273-290: a ticket enters `crisisData` when both `crisis_wish` and
`created_at` are truthy and `parseFloat(crisis_wish)` is not NaN; the date
is pushed unvalidated. -/
def crisisData (tickets : List Ticket) : List CrisisItem :=
  tickets.filterMap (fun t =>
    match t.properties.crisis_wish, t.created_at with
    | some w, some c =>
      if w ≠ "" && c ≠ "" then
        match parseJsFloat w with
        | some a => some { date := parseJsDate c, amount := a }
        | none => none
      else none
    | _, _ => none)

/-- The comparator at line 293, `a.date.getTime() - b.date.getTime()`; when
either time value is NaN the host treats the comparison result as 0, so no
swap occurs. -/
def crisisLe (a b : CrisisItem) : Prop :=
  match a.date, b.date with
  | some x, some y => x ≤ y
  | _, _ => True

instance : DecidableRel crisisLe := fun a b => by
  unfold crisisLe
  match a.date, b.date with
  | some x, some y => exact inferInstance
  | some _, none => exact inferInstance
  | none, some _ => exact inferInstance
  | none, none => exact inferInstance

/-- Line 293: the host's stable comparison sort; on a consistent comparator
any stable sort (here insertion sort) produces the same sequence. -/
def sortedCrisisData (tickets : List Ticket) : List CrisisItem :=
  List.insertionSort crisisLe (crisisData tickets)

/-- The emission loop at lines 300-305: per item it pushes `index + 1`, the
updated running total, and the ISO calendar day of the item's date.
`toISOString` on an invalid date throws `RangeError: Invalid time value`,
which aborts the whole chart construction. -/
def crisisEmit (idx : Nat) (acc : ℚ) :
    List CrisisItem → Except String (List Nat × List ℚ × List String)
  | [] => Except.ok ([], [], [])
  | it :: rest =>
    match it.date with
    | none => Except.error ("Invalid time value")
    | some d =>
      match crisisEmit (idx + 1) (acc + it.amount) rest with
      | Except.error e => Except.error e
      | Except.ok (cs, ts, ds) =>
        Except.ok ((idx + 1) :: cs, (acc + it.amount) :: ts, formatISODate d :: ds)

/-- Line 365: whole years via the 365.25-day approximation, floored. -/
def computeAge (nowMs birthMs : Int) : Int :=
  Int.fdiv (nowMs - birthMs) msPerYear

/-- Lines 360-373: ages of tickets with a truthy, parsable `birthday`,
kept only when within `[0, 120]`; an invalid birth date gives a NaN age,
which fails the range check. -/
def computeAges (nowMs : Int) (tickets : List Ticket) : List Int :=
  tickets.filterMap (fun t =>
    match t.properties.birthday with
    | none => none
    | some b =>
      if b = "" then none
      else
        match parseJsDate b with
        | none => none
        | some bd =>
          let age := computeAge nowMs bd
          if 0 ≤ age && age ≤ 120 then some age else none)

def ageGroupLabels : List String :=
  ["0-17", "18-24", "25-34", "35-44", "45-54", "55-64", "65+"]

/-- The bucket index chosen by the if-chain at lines 381-397. -/
def ageBucketIndex (age : Int) : Nat :=
  if age < 18 then 0
  else if age < 25 then 1
  else if age < 35 then 2
  else if age < 45 then 3
  else if age < 55 then 4
  else if age < 65 then 5
  else 6

/-- Lines 376-397: the seven fixed groups in ascending order with the tally
of ages falling in each. -/
def ageGroupsOrdered (ages : List Int) : List (String × Nat) :=
  (List.range 7).map (fun i =>
    (ageGroupLabels.getD i (""), (ages.filter (fun a => ageBucketIndex a == i)).length))

/-- Line 400: empty groups dropped, order kept. -/
def filteredAgeGroups (ages : List Int) : List (String × Nat) :=
  (ageGroupsOrdered ages).filter (fun p => 0 < p.2)

/-- Lines 402-443: either a horizontal histogram (with the valid-age count
in the title) or the explicit no-data marker. -/
inductive AgeChart where
  | hist (groups : List (String × Nat)) (total : Nat)
  | noData
deriving DecidableEq

def ageChartOf (nowMs : Int) (tickets : List Ticket) : AgeChart :=
  let ages := computeAges nowMs tickets
  let groups := filteredAgeGroups ages
  if 0 < groups.length then AgeChart.hist groups ages.length else AgeChart.noData

/-- The observable content of the four chart payloads: series values only;
the fixed layout/styling text is constant and carried by the JSON
serialization unmodelled. -/
structure Charts where
  resource_support : Nat × Nat
  service_provided : List String × List TallyValue
  crisis_wish_tracking : List Nat × List ℚ × List String
  age_demographics : AgeChart
deriving DecidableEq

/-- Lines 185-451. The crisis loop runs before the age section; a throw
there aborts the whole builder. -/
def generateCharts (nowMs : Int) (tickets : List Ticket) : Except String Charts :=
  let resourceCount :=
    (tickets.filter (fun t => t.status == JsValue.str ("RESOURCE_SUPPORT"))).length
  let waitingCount :=
    (tickets.filter (fun t => t.status == JsValue.str ("WAITING_FOR_RESPONSE"))).length
  let entries := jsObjectEntries (serviceCounts tickets)
  match crisisEmit 0 0 (sortedCrisisData tickets) with
  | Except.error e => Except.error e
  | Except.ok crisis =>
    Except.ok
      { resource_support := (resourceCount, waitingCount)
        service_provided := (entries.map Prod.fst, entries.map Prod.snd)
        crisis_wish_tracking := crisis
        age_demographics := ageChartOf nowMs tickets }

/-! ## Fetch and GET handler (lines 75-139, 453-482) -/

/-- One upstream page response: either a transport failure carrying the
thrown error's message, or an HTTP response with its paging cursor. -/
structure HttpPage where
  ok : Bool
  status : Nat
  statusText : String
  results : List RawProperties
  nextAfter : Option String

/-- Lines 95-132: follow the cursor page by page; a non-ok response throws
`HubSpot API error: <status> <statusText>`; the loop stops at the first
page without a next cursor. The environment lists the successive responses
the loop would receive. -/
def fetchPages : List (Except String HttpPage) → Except String (List RawProperties)
  | [] => Except.ok []
  | Except.error msg :: _ => Except.error msg
  | Except.ok page :: rest =>
    if !page.ok then
      Except.error ("HubSpot API error: " ++ toString page.status ++ " " ++ page.statusText)
    else
      match page.nextAfter with
      | none => Except.ok page.results
      | some _ =>
        match fetchPages rest with
        | Except.error e => Except.error e
        | Except.ok ts => Except.ok (page.results ++ ts)

/-- Lines 75-93: a missing (or empty, hence falsy) `HUBSPOT_API_KEY` throws
before any request is made. -/
def fetchHubSpotTickets (apiKey : Option String)
    (pages : List (Except String HttpPage)) : Except String (List RawProperties) :=
  match apiKey with
  | none => Except.error ("HUBSPOT_API_KEY environment variable is not set")
  | some k =>
    if k = "" then Except.error ("HUBSPOT_API_KEY environment variable is not set")
    else fetchPages pages

structure ApiResponse where
  success : Bool
  stats : Option DashboardStats
  charts : Option Charts
  error : Option String
  statusCode : Nat
deriving DecidableEq

/-- Lines 453-482: any throw inside the try block is converted to a 500
response carrying the error's message and nothing else. -/
def GET (nowMs : Int) (apiKey : Option String)
    (pages : List (Except String HttpPage)) : ApiResponse :=
  match fetchHubSpotTickets apiKey pages with
  | Except.error e =>
    { success := false, stats := none, charts := none, error := some e, statusCode := 500 }
  | Except.ok raws =>
    let tickets := raws.map transform
    let stats := generateDashboardStats nowMs tickets
    match generateCharts nowMs tickets with
    | Except.error e =>
      { success := false, stats := none, charts := none, error := some e, statusCode := 500 }
    | Except.ok charts =>
      { success := true, stats := some stats, charts := some charts,
        error := none, statusCode := 200 }

/-! ## Spec-side definitions (for comparison with the code) -/

/-- Spec-side (4.3 item 2): the distinct admissible service values in
first-seen order. -/
def seenStep (acc : List String) (t : Ticket) : List String :=
  match admissibleService t with
  | some s => if s ∈ acc then acc else acc ++ [s]
  | none => acc

def firstSeenServices (tickets : List Ticket) : List String :=
  tickets.foldl seenStep []

/-- Spec-side: the parsed creation timestamp of a ticket, when present and
parsable. -/
def createdAtMs (t : Ticket) : Option Int :=
  match t.created_at with
  | none => none
  | some s => parseJsDate s

/-- Spec-side (4.1): a status of the synthetic form `STAGE_<code>`. -/
def isStageLabel (v : JsValue) : Prop := ∃ code, v = JsValue.str ("STAGE_" ++ code)

/-- Spec-side: a status that is a member inherited from `Object.prototype`
(the result of a prototype-named stage code). -/
def isInheritedValue (v : JsValue) : Prop := ∃ name, v = JsValue.inherited name

/-- Spec-side: the value recorded for key `k` in an association list. -/
def lookupVal (m : List (String × TallyValue)) (k : String) : Option TallyValue :=
  Option.map Prod.snd (m.find? (fun p => p.1 = k))

/-- Spec-side: `n` occurrences applied to a start value: an absent key is
created at the number 1 on the first occurrence, then bumped. -/
def bumpN : Nat → Option TallyValue → Option TallyValue
  | 0, v => v
  | n + 1, none => bumpN n (some (TallyValue.num 1))
  | n + 1, some v => bumpN n (some (bumpTally v))

/-! ## Concrete inputs used to instantiate the theorems -/

def cexCrisisA : Ticket := transform ⟨none, some ("2024-01-01"), none, some ("3"), none⟩

def cexCrisisB : Ticket := transform ⟨none, some ("2024-01-02"), none, some ("-5"), none⟩

def cexSvcTwo : Ticket := transform ⟨none, none, some ("2"), none, none⟩

def cexSvcOne : Ticket := transform ⟨none, none, some ("1"), none, none⟩

def wBadSvc : Ticket := transform ⟨none, none, some (""), none, none⟩

def cexProtoStage : Ticket := transform ⟨some ("toString"), none, none, none, none⟩

def cexSvcToString : Ticket := transform ⟨none, none, some ("toString"), none, none⟩

def cexSvcProto : Ticket := transform ⟨none, none, some ("__proto__"), none, none⟩

def badDateRaw : RawProperties := ⟨some ("1"), some ("not-a-date"), none, some ("5"), none⟩

def cexBadDate : Ticket := transform badDateRaw

def wNew : Ticket := transform ⟨some ("1"), none, none, none, none⟩

def wCompleted : Ticket := transform ⟨some ("257285393"), none, none, none, none⟩

def wEmptyStage : Ticket := transform ⟨some (""), none, none, none, none⟩

/-- 2024-06-05, a Wednesday, as an evaluation instant. -/
def wNow : Int := (civilToEpochDay 2024 6 5) * msPerDay

def wWeekT1 : Ticket := transform ⟨none, some ("2024-05-31"), none, none, none⟩

def wWeekT2 : Ticket := transform ⟨none, some ("2024-06-01"), none, none, none⟩

def wWeekT3 : Ticket := transform ⟨none, some ("2024-06-02"), none, none, none⟩

def wAgeTicket : Ticket := transform ⟨none, none, none, none, some ("2007-01-01")⟩

/-! ## Aggregator lemmas -/

lemma stats_open_eq (nowMs : Int) (tickets : List Ticket) :
    (generateDashboardStats nowMs tickets).open_tickets
      = tickets.countP (fun t => jsIncludes openStatuses t.status) := by
  cases tickets with
  | nil => rfl
  | cons t ts => simp [generateDashboardStats, List.countP_eq_length_filter]

lemma stats_closed_eq (nowMs : Int) (tickets : List Ticket) :
    (generateDashboardStats nowMs tickets).closed_tickets
      = tickets.countP (fun t => jsIncludes closedStatuses t.status) := by
  cases tickets with
  | nil => rfl
  | cons t ts => simp [generateDashboardStats, List.countP_eq_length_filter]

lemma stats_week_eq (nowMs : Int) (tickets : List Ticket) :
    (generateDashboardStats nowMs tickets).new_tickets_this_week
      = tickets.countP (fun t => jsCreatedOnOrAfter t (startOfWeekMs nowMs)) := by
  cases tickets with
  | nil => rfl
  | cons t ts => simp [generateDashboardStats, List.countP_eq_length_filter]

lemma countP_add_of_disjoint {α : Type} (p q : α → Bool)
    (h : ∀ a, ¬(p a = true ∧ q a = true)) (l : List α) :
    l.countP p + l.countP q = l.countP (fun a => p a || q a) := by
  induction l with
  | nil => simp
  | cons a l ih =>
    have ha := h a
    simp only [List.countP_cons]
    cases hp : p a <;> cases hq : q a <;> simp [hp, hq] at ha ⊢ <;> omega

/-! ## Status classification lemmas -/

lemma stage_label_head (c : String) : (("STAGE_" ++ c : String)).data.head? = some 'S' := rfl

lemma not_isStageLabel_str (lbl : String) (h : lbl.data.head? ≠ some 'S') :
    ¬ isStageLabel (JsValue.str lbl) := by
  rintro ⟨c, hc⟩
  have he : lbl = "STAGE_" ++ c := by injection hc
  rw [he] at h
  exact h (stage_label_head c)

lemma not_isStageLabel_inherited (name : String) :
    ¬ isStageLabel (JsValue.inherited name) := by
  rintro ⟨c, hc⟩
  exact JsValue.noConfusion hc

lemma not_isInherited_str (s : String) : ¬ isInheritedValue (JsValue.str s) := by
  rintro ⟨n, hn⟩
  exact JsValue.noConfusion hn

/-- The classifier's output is the fixed label for an absent or empty
stage, a table label, an inherited prototype member for a prototype-named
code, or the synthetic label built from any other raw code. -/
lemma getStatus_cases (stage : Option String) :
    getStatusFromStage stage = JsValue.str ("UNKNOWN")
    ∨ (∃ p ∈ stageMapping, getStatusFromStage stage = JsValue.str p.2)
    ∨ (∃ s, stage = some s ∧ s ∈ protoProps
        ∧ getStatusFromStage stage = JsValue.inherited s)
    ∨ (∃ s, stage = some s ∧ s ≠ ""
        ∧ getStatusFromStage stage = JsValue.str ("STAGE_" ++ s)) := by
  match stage with
  | none => exact Or.inl rfl
  | some s =>
    by_cases he : s = ""
    · exact Or.inl (by simp [getStatusFromStage, he])
    · cases hf : stageMapping.find? (fun p => p.1 = s) with
      | some p =>
        exact Or.inr (Or.inl ⟨p, List.mem_of_find?_eq_some hf,
          by simp [getStatusFromStage, he, hf]⟩)
      | none =>
        by_cases hp : s ∈ protoProps
        · exact Or.inr (Or.inr (Or.inl ⟨s, rfl, hp,
            by simp [getStatusFromStage, he, hf, hp]⟩))
        · exact Or.inr (Or.inr (Or.inr ⟨s, rfl, he,
            by simp [getStatusFromStage, he, hf, hp]⟩))

lemma label_in_union (p : String × String) (hp : p ∈ stageMapping) :
    (jsIncludes openStatuses (JsValue.str p.2)
      || jsIncludes closedStatuses (JsValue.str p.2)) = true := by
  fin_cases hp <;> decide

lemma open_closed_disjoint (v : JsValue) :
    ¬(jsIncludes openStatuses v = true ∧ jsIncludes closedStatuses v = true) := by
  rintro ⟨h1, h2⟩
  obtain ⟨s1, hs1, he1⟩ := List.any_eq_true.1 h1
  obtain ⟨s2, hs2, he2⟩ := List.any_eq_true.1 h2
  have e1 : v = JsValue.str s1 := by simpa using he1
  have e2 : v = JsValue.str s2 := by simpa using he2
  have hss : s1 = s2 := by
    rw [e1] at e2
    injection e2
  subst hss
  fin_cases hs1 <;> exact absurd hs2 (by decide)

lemma mem_union_not_bad (v : JsValue)
    (h : (jsIncludes openStatuses v || jsIncludes closedStatuses v) = true) :
    ¬(v = JsValue.str ("UNKNOWN") ∨ isStageLabel v ∨ isInheritedValue v) := by
  have hv : ∃ s, (s ∈ openStatuses ∨ s ∈ closedStatuses) ∧ v = JsValue.str s := by
    rcases Bool.or_eq_true_iff.1 h with h | h
    · obtain ⟨s, hs, he⟩ := List.any_eq_true.1 h
      exact ⟨s, Or.inl hs, by simpa using he⟩
    · obtain ⟨s, hs, he⟩ := List.any_eq_true.1 h
      exact ⟨s, Or.inr hs, by simpa using he⟩
  obtain ⟨s, hs, rfl⟩ := hv
  have h10 : s ∈ openStatuses ++ closedStatuses := by
    rcases hs with h | h <;> simp [h]
  rintro (he | hst | hin)
  · have : s = "UNKNOWN" := by injection he
    subst this
    revert h10
    decide
  · revert hst
    fin_cases h10 <;> exact not_isStageLabel_str _ (by decide)
  · exact not_isInherited_str s hin

/-- A classifier-produced status is counted (by the open or the closed
filter) exactly when it is not `UNKNOWN`, not of the `STAGE_<code>` form,
and not an inherited prototype member. -/
lemma status_union_iff (stage : Option String) :
    (jsIncludes openStatuses (getStatusFromStage stage)
      || jsIncludes closedStatuses (getStatusFromStage stage)) = true
    ↔ ¬(getStatusFromStage stage = JsValue.str ("UNKNOWN")
        ∨ isStageLabel (getStatusFromStage stage)
        ∨ isInheritedValue (getStatusFromStage stage)) := by
  constructor
  · exact mem_union_not_bad _
  · intro h
    rcases getStatus_cases stage with h1 | ⟨p, hp, h2⟩ | ⟨s, _, _, h3⟩ | ⟨s, _, _, h4⟩
    · exact absurd (Or.inl h1) h
    · rw [h2]
      exact label_in_union p hp
    · exact absurd (Or.inr (Or.inr ⟨s, h3⟩)) h
    · exact absurd (Or.inr (Or.inl ⟨s, h4⟩)) h

/-- C1 (amended): for every ticket collection whose statuses come from the
stage classifier, `open_tickets + closed_tickets` is at most the total
number of tickets, and equality holds exactly when no ticket's status is
`UNKNOWN`, of the form `STAGE_<code>`, or a member inherited from
`Object.prototype` (the result of a prototype-named stage code). -/
theorem C1_open_closed_partition (nowMs : Int) (tickets : List Ticket)
    (hrange : ∀ t ∈ tickets, ∃ stage, t.status = getStatusFromStage stage) :
    (generateDashboardStats nowMs tickets).open_tickets
        + (generateDashboardStats nowMs tickets).closed_tickets ≤ tickets.length
    ∧ ((generateDashboardStats nowMs tickets).open_tickets
          + (generateDashboardStats nowMs tickets).closed_tickets = tickets.length
        ↔ ∀ t ∈ tickets,
            ¬(t.status = JsValue.str ("UNKNOWN") ∨ isStageLabel t.status
              ∨ isInheritedValue t.status)) := by
  have hsum : tickets.countP (fun t => jsIncludes openStatuses t.status)
      + tickets.countP (fun t => jsIncludes closedStatuses t.status)
      = tickets.countP (fun t =>
          jsIncludes openStatuses t.status || jsIncludes closedStatuses t.status) :=
    countP_add_of_disjoint _ _ (fun t => open_closed_disjoint t.status) tickets
  rw [stats_open_eq, stats_closed_eq, hsum]
  constructor
  · exact List.countP_le_length _
  · rw [List.countP_eq_length]
    constructor
    · intro hall t ht
      obtain ⟨stage, hst⟩ := hrange t ht
      have hu := hall t ht
      rw [hst] at hu ⊢
      exact (status_union_iff stage).1 hu
    · intro hall t ht
      obtain ⟨stage, hst⟩ := hrange t ht
      have hu := hall t ht
      rw [hst] at hu ⊢
      exact (status_union_iff stage).2 hu

/-- C1 counterexample: a ticket with stage code `toString` gets the
inherited `Object.prototype.toString` as its status, counts in neither the
open nor the closed set (sum 0 < total 1), yet its status is neither
`UNKNOWN` nor of the `STAGE_<code>` form — refuting the claimed
equality-iff as stated. -/
theorem C1_counterexample :
    (generateDashboardStats 0 [cexProtoStage]).open_tickets
        + (generateDashboardStats 0 [cexProtoStage]).closed_tickets = 0
    ∧ ([cexProtoStage] : List Ticket).length = 1
    ∧ ∀ t ∈ [cexProtoStage],
        ¬(t.status = JsValue.str ("UNKNOWN") ∨ isStageLabel t.status) := by
  refine ⟨by decide, rfl, ?_⟩
  intro t ht
  simp at ht
  subst ht
  have hst : cexProtoStage.status = JsValue.inherited ("toString") := rfl
  rintro (he | ⟨c, hc⟩)
  · rw [hst] at he
    exact JsValue.noConfusion he
  · rw [hst] at hc
    exact JsValue.noConfusion hc

/-- C1 witness: the amended theorem instantiated at a one-ticket collection
whose stage code is in the table. -/
theorem C1_witness :
    (generateDashboardStats 0 [wNew]).open_tickets
        + (generateDashboardStats 0 [wNew]).closed_tickets ≤ 1 :=
  (C1_open_closed_partition 0 [wNew]
    (by intro t ht; simp at ht; subst ht; exact ⟨some ("1"), rfl⟩)).1

/-- C2 (amended): the classifier maps an absent identifier to `UNKNOWN`,
each of the 10 table codes to its listed label, and any other non-empty
identifier that is not an `Object.prototype` property name to `STAGE_`
followed by the code; a prototype-named identifier (`toString`,
`__proto__`, …) instead yields the inherited truthy non-string member; a
ticket whose stage code is `257285393` (COMPLETED) is counted in
`closed_tickets` and not in `open_tickets`. -/
theorem C2_status_classifier :
    getStatusFromStage none = JsValue.str ("UNKNOWN")
    ∧ (getStatusFromStage (some ("1")) = JsValue.str ("NEW")
        ∧ getStatusFromStage (some ("2")) = JsValue.str ("BACKLOG")
        ∧ getStatusFromStage (some ("3")) = JsValue.str ("RESOURCE_SUPPORT")
        ∧ getStatusFromStage (some ("4")) = JsValue.str ("CLOSED")
        ∧ getStatusFromStage (some ("257285392")) = JsValue.str ("WAITING_FOR_RESPONSE")
        ∧ getStatusFromStage (some ("257285393")) = JsValue.str ("COMPLETED")
        ∧ getStatusFromStage (some ("1686843097")) = JsValue.str ("IN_PROCESS_STAFFMARK")
        ∧ getStatusFromStage (some ("1687677633")) = JsValue.str ("EMPLOYMENT_SUPPORT")
        ∧ getStatusFromStage (some ("999098012")) = JsValue.str ("IN_PROCESS_OSW")
        ∧ getStatusFromStage (some ("1746656967")) = JsValue.str ("ARCHIVED"))
    ∧ (∀ s : String, s ≠ "" → (∀ p ∈ stageMapping, p.1 ≠ s) → ¬ s ∈ protoProps →
        getStatusFromStage (some s) = JsValue.str ("STAGE_" ++ s))
    ∧ (∀ s ∈ protoProps, getStatusFromStage (some s) = JsValue.inherited s)
    ∧ (∀ (nowMs : Int) (tickets : List Ticket) (t : Ticket),
        t.status = getStatusFromStage (some ("257285393")) →
        (generateDashboardStats nowMs (t :: tickets)).closed_tickets
            = (generateDashboardStats nowMs tickets).closed_tickets + 1
        ∧ (generateDashboardStats nowMs (t :: tickets)).open_tickets
            = (generateDashboardStats nowMs tickets).open_tickets) := by
  refine ⟨rfl, by decide, ?_, by decide, ?_⟩
  · intro s hne hnotin hp
    have hf : stageMapping.find? (fun p => p.1 = s) = none :=
      List.find?_eq_none.2 (fun p hpm => by simpa using hnotin p hpm)
    simp [getStatusFromStage, hne, hf, hp]
  · intro nowMs tickets t hst
    have hc : jsIncludes closedStatuses t.status = true := by
      rw [hst]
      decide
    have ho : jsIncludes openStatuses t.status = false := by
      rw [hst]
      decide
    constructor
    · rw [stats_closed_eq, stats_closed_eq, List.countP_cons]
      simp [hc]
    · rw [stats_open_eq, stats_open_eq, List.countP_cons]
      simp [ho]

/-- C2 counterexample: the stage code `toString` hits the inherited
`Object.prototype.toString` (truthy), so the classifier returns that
member, not the string `STAGE_toString` — refuting the claimed clause for
arbitrary non-empty identifiers. -/
theorem C2_counterexample :
    getStatusFromStage (some ("toString")) = JsValue.inherited ("toString")
    ∧ getStatusFromStage (some ("toString")) ≠ JsValue.str ("STAGE_toString") :=
  ⟨by decide, by decide⟩

/-- C2 witness: a COMPLETED-stage ticket bumps the closed count. -/
theorem C2_witness :
    (generateDashboardStats 0 [wCompleted]).closed_tickets
      = (generateDashboardStats 0 []).closed_tickets + 1 :=
  ((C2_status_classifier.2.2.2.2) 0 [] wCompleted rfl).1

/-- C10: the classifier maps the empty-string stage identifier to `UNKNOWN`
(treated like an absent code, not `STAGE_`), so such a ticket counts toward
neither `open_tickets` nor `closed_tickets`. -/
theorem C10_empty_stage_unknown :
    getStatusFromStage (some ("")) = JsValue.str ("UNKNOWN")
    ∧ (∀ (nowMs : Int) (tickets : List Ticket) (t : Ticket),
        t.status = getStatusFromStage (some ("")) →
        (generateDashboardStats nowMs (t :: tickets)).open_tickets
            = (generateDashboardStats nowMs tickets).open_tickets
        ∧ (generateDashboardStats nowMs (t :: tickets)).closed_tickets
            = (generateDashboardStats nowMs tickets).closed_tickets) := by
  refine ⟨rfl, ?_⟩
  intro nowMs tickets t hst
  have ho : jsIncludes openStatuses t.status = false := by
    rw [hst]
    decide
  have hc : jsIncludes closedStatuses t.status = false := by
    rw [hst]
    decide
  constructor
  · rw [stats_open_eq, stats_open_eq, List.countP_cons]
    simp [ho]
  · rw [stats_closed_eq, stats_closed_eq, List.countP_cons]
    simp [hc]

/-- C10 witness: an empty-stage ticket leaves both totals unchanged. -/
theorem C10_witness :
    (generateDashboardStats 0 [wEmptyStage]).open_tickets
      = (generateDashboardStats 0 []).open_tickets :=
  ((C10_empty_stage_unknown.2) 0 [] wEmptyStage rfl).1

/-- C6: on the empty ticket collection the aggregator returns all five
statistics equal to 0 and the chart builder emits the explicit no-data
marker for the age chart (with all series empty). -/
theorem C6_empty_input (nowMs : Int) :
    generateDashboardStats nowMs [] =
      { open_tickets := 0, new_tickets_this_week := 0, osw_count := 0,
        staffmark_count := 0, closed_tickets := 0 }
    ∧ generateCharts nowMs [] =
      Except.ok
        { resource_support := (0, 0), service_provided := ([], []),
          crisis_wish_tracking := ([], [], []),
          age_demographics := AgeChart.noData } :=
  ⟨rfl, rfl⟩

/-! ## Age histogram lemmas -/

lemma computeAges_bounds (nowMs : Int) (tickets : List Ticket) :
    ∀ a ∈ computeAges nowMs tickets, 0 ≤ a ∧ a ≤ 120 := by
  intro a ha
  obtain ⟨t, _, hf⟩ := List.mem_filterMap.1 ha
  rcases hb : t.properties.birthday with _ | b <;> rw [hb] at hf
  · simp at hf
  · by_cases he : b = ""
    · simp [he] at hf
    · rcases hp : parseJsDate b with _ | bd <;> simp only [he, hp, if_false] at hf
      · simp at hf
      · split at hf
        · next hcond =>
          obtain rfl : computeAge nowMs bd = a := by simpa using hf
          simpa using hcond
        · simp at hf

/-- C5: each computed age is bucketed with 17 in `0-17`, 18 in `18-24`,
120 in `65+`; ages outside `[0, 120]` (such as 121) are excluded entirely;
the seven buckets are fixed and ascending; empty buckets are dropped from
the output while the order of the remaining ones is preserved. -/
theorem C5_age_histogram :
    ageGroupLabels.getD (ageBucketIndex 17) ("") = "0-17"
    ∧ ageGroupLabels.getD (ageBucketIndex 18) ("") = "18-24"
    ∧ ageGroupLabels.getD (ageBucketIndex 120) ("") = "65+"
    ∧ (∀ (nowMs : Int) (tickets : List Ticket),
        ∀ a ∈ computeAges nowMs tickets, 0 ≤ a ∧ a ≤ 120)
    ∧ (∀ ages : List Int, (ageGroupsOrdered ages).map Prod.fst = ageGroupLabels)
    ∧ (∀ ages : List Int,
        List.Sublist (filteredAgeGroups ages) (ageGroupsOrdered ages)
        ∧ ∀ p ∈ ageGroupsOrdered ages,
            (p ∈ filteredAgeGroups ages ↔ 0 < p.2)) := by
  refine ⟨by decide, by decide, by decide, computeAges_bounds, fun ages => rfl, fun ages => ⟨List.filter_sublist _, ?_⟩⟩
  intro p hp
  constructor
  · intro hmem
    have := List.mem_filter.1 hmem
    simpa using this.2
  · intro hpos
    exact List.mem_filter.2 ⟨hp, by simpa using hpos⟩

/-- C5 witness: a concrete collection whose single computed age (17) obeys
the bucket range bounds. -/
theorem C5_witness : (0 : Int) ≤ 17 ∧ (17 : Int) ≤ 120 :=
  (C5_age_histogram.2.2.2.1) wNow [wAgeTicket] 17 (by decide)

/-! ## Week-start lemmas -/

/-- The source's truthiness-guarded filter agrees pointwise with the
spec-side description through `createdAtMs`. -/
lemma jsCreatedOnOrAfter_eq (t : Ticket) (b : Int) :
    jsCreatedOnOrAfter t b =
      (match createdAtMs t with
       | some d => decide (b ≤ d)
       | none => false) := by
  unfold jsCreatedOnOrAfter createdAtMs
  rcases t.created_at with _ | s
  · rfl
  · by_cases he : s = ""
    · subst he
      rfl
    · simp only [he, if_false]

/-- C7: `new_tickets_this_week` counts exactly the tickets whose
`created_at` parses to a timestamp on or after the computed week start
(missing or unparsable dates excluded); the week start is the most recent
Sunday at 00:00 (a Sunday-numbered day, at most `now`, less than seven days
back); and for two tickets before and one on/after the boundary the count
is exactly 1. -/
theorem C7_new_tickets_this_week :
    (∀ (nowMs : Int) (tickets : List Ticket),
      (generateDashboardStats nowMs tickets).new_tickets_this_week
        = tickets.countP (fun t =>
            match createdAtMs t with
            | some d => decide (startOfWeekMs nowMs ≤ d)
            | none => false))
    ∧ (∀ nowMs : Int,
        jsGetDay (Int.fdiv (startOfWeekMs nowMs) msPerDay) = 0
        ∧ startOfWeekMs nowMs ≤ nowMs
        ∧ nowMs < startOfWeekMs nowMs + 7 * msPerDay)
    ∧ (∀ (nowMs : Int) (t1 t2 t3 : Ticket) (d1 d2 d3 : Int),
        createdAtMs t1 = some d1 → d1 < startOfWeekMs nowMs →
        createdAtMs t2 = some d2 → d2 < startOfWeekMs nowMs →
        createdAtMs t3 = some d3 → startOfWeekMs nowMs ≤ d3 →
        (generateDashboardStats nowMs [t1, t2, t3]).new_tickets_this_week = 1) := by
  refine ⟨?_, ?_, ?_⟩
  · intro nowMs tickets
    rw [stats_week_eq]
    exact List.countP_congr (fun t _ => by rw [jsCreatedOnOrAfter_eq])
  · intro nowMs
    have hstart : startOfWeekMs nowMs
        = (Int.fdiv nowMs 86400000 - (Int.fdiv nowMs 86400000 + 4).emod 7) * 86400000 := by
      simp [startOfWeekMs, jsGetDay, msPerDay]
    have hediv : Int.fdiv nowMs 86400000 = nowMs / 86400000 :=
      Int.fdiv_eq_ediv _ (by norm_num)
    refine ⟨?_, ?_, ?_⟩
    · rw [hstart]
      show ((Int.fdiv _ msPerDay) + 4).emod 7 = 0
      rw [show msPerDay = 86400000 from rfl, Int.mul_fdiv_cancel _ (by norm_num)]
      simp only [show ∀ a : Int, a.emod 7 = a % 7 from fun _ => rfl]
      omega
    · rw [hstart, hediv]
      simp only [show ∀ a : Int, a.emod 7 = a % 7 from fun _ => rfl]
      omega
    · rw [hstart, hediv, show msPerDay = 86400000 from rfl]
      simp only [show ∀ a : Int, a.emod 7 = a % 7 from fun _ => rfl]
      omega
  · intro nowMs t1 t2 t3 d1 d2 d3 h1 hd1 h2 hd2 h3 hd3
    have e1 : jsCreatedOnOrAfter t1 (startOfWeekMs nowMs) = false := by
      rw [jsCreatedOnOrAfter_eq, h1]
      simp
      omega
    have e2 : jsCreatedOnOrAfter t2 (startOfWeekMs nowMs) = false := by
      rw [jsCreatedOnOrAfter_eq, h2]
      simp
      omega
    have e3 : jsCreatedOnOrAfter t3 (startOfWeekMs nowMs) = true := by
      rw [jsCreatedOnOrAfter_eq, h3]
      simpa using hd3
    rw [stats_week_eq]
    simp [List.countP_cons, e1, e2, e3]

/-! ## Service-distribution lemmas -/

lemma insertService_fst (m : List (String × TallyValue)) (k : String) :
    (insertService m k).map Prod.fst
      = (if k = "__proto__" then m.map Prod.fst
         else if k ∈ m.map Prod.fst then m.map Prod.fst
         else m.map Prod.fst ++ [k]) := by
  unfold insertService
  by_cases hpr : k = "__proto__"
  · simp [hpr]
  · rw [if_neg hpr, if_neg hpr]
    cases hany : m.any (fun p => p.1 = k) with
    | false =>
      have hk : k ∉ m.map Prod.fst := by
        intro hmem
        obtain ⟨p, hp, hpk⟩ := List.mem_map.1 hmem
        have : m.any (fun p => p.1 = k) = true :=
          List.any_eq_true.2 ⟨p, hp, by simp [hpk]⟩
        rw [hany] at this
        exact Bool.false_ne_true this
      by_cases hp : k ∈ protoProps <;> simp [hk, hp]
    | true =>
      have hk : k ∈ m.map Prod.fst := by
        obtain ⟨p, hp, hpk⟩ := List.any_eq_true.1 hany
        exact List.mem_map.2 ⟨p, hp, by simpa using hpk⟩
      simp only [eq_self_iff_true, if_true, if_pos hk, List.map_map]
      refine List.map_congr_left fun p _ => ?_
      by_cases hpk : p.1 = k <;> simp [hpk]

lemma foldl_serviceStep_fst (l : List Ticket) :
    ∀ m : List (String × TallyValue),
      (∀ t ∈ l, ∀ s, admissibleService t = some s → ¬ s ∈ protoProps) →
      (l.foldl serviceStep m).map Prod.fst = l.foldl seenStep (m.map Prod.fst) := by
  induction l with
  | nil => intro m _; rfl
  | cons t l ih =>
    intro m hnp
    show (l.foldl serviceStep (serviceStep m t)).map Prod.fst
      = l.foldl seenStep (seenStep (m.map Prod.fst) t)
    rw [ih _ (fun x hx => hnp x (List.mem_cons_of_mem t hx))]
    congr 1
    unfold serviceStep seenStep
    cases ha : admissibleService t with
    | none => rfl
    | some v =>
      have hs := hnp t (List.mem_cons_self t l) v ha
      have hpr : ¬ v = "__proto__" := fun h => hs (by rw [h]; decide)
      rw [insertService_fst, if_neg hpr]

lemma insertService_keys_nodup (m : List (String × TallyValue)) (k : String)
    (h : (m.map Prod.fst).Nodup) : ((insertService m k).map Prod.fst).Nodup := by
  rw [insertService_fst]
  by_cases hpr : k = "__proto__"
  · simp [hpr, h]
  · rw [if_neg hpr]
    by_cases hk : k ∈ m.map Prod.fst
    · simp [hk, h]
    · simp [hk, h, List.nodup_append]

lemma serviceCounts_keys_nodup (tickets : List Ticket) :
    ((serviceCounts tickets).map Prod.fst).Nodup := by
  have key : ∀ (l : List Ticket) (m : List (String × TallyValue)),
      (m.map Prod.fst).Nodup → ((l.foldl serviceStep m).map Prod.fst).Nodup := by
    intro l
    induction l with
    | nil => exact fun m h => h
    | cons t l ih =>
      intro m h
      refine ih _ ?_
      unfold serviceStep
      cases admissibleService t with
      | none => exact h
      | some v => exact insertService_keys_nodup m v h
  exact key tickets [] List.nodup_nil

lemma lookupVal_cons_pos (q : String × TallyValue) (m : List (String × TallyValue))
    (k : String) (h : q.1 = k) : lookupVal (q :: m) k = some q.2 := by
  unfold lookupVal
  rw [List.find?_cons_of_pos _ (by simp [h])]
  rfl

lemma lookupVal_cons_neg (q : String × TallyValue) (m : List (String × TallyValue))
    (k : String) (h : ¬ q.1 = k) : lookupVal (q :: m) k = lookupVal m k := by
  unfold lookupVal
  rw [List.find?_cons_of_neg _ (by simp [h])]

lemma lookup_map_bump (m : List (String × TallyValue)) (k : String) :
    lookupVal (m.map (fun p => if p.1 = k then (p.1, bumpTally p.2) else p)) k
      = Option.map bumpTally (lookupVal m k) := by
  induction m with
  | nil => rfl
  | cons q m ih =>
    rw [List.map_cons]
    by_cases hk : q.1 = k
    · rw [if_pos hk, lookupVal_cons_pos _ _ _ (by simpa using hk),
        lookupVal_cons_pos _ _ _ hk]
      rfl
    · rw [if_neg hk, lookupVal_cons_neg _ _ _ hk, lookupVal_cons_neg _ _ _ hk]
      exact ih

lemma lookup_map_bump_other (m : List (String × TallyValue)) (kb k : String)
    (hne : kb ≠ k) :
    lookupVal (m.map (fun p => if p.1 = kb then (p.1, bumpTally p.2) else p)) k
      = lookupVal m k := by
  induction m with
  | nil => rfl
  | cons q m ih =>
    rw [List.map_cons]
    by_cases hk : q.1 = k
    · have hb : ¬ q.1 = kb := fun h => hne (by rw [← h]; exact hk)
      rw [if_neg hb, lookupVal_cons_pos _ _ _ hk, lookupVal_cons_pos _ _ _ hk]
    · by_cases hb : q.1 = kb
      · rw [if_pos hb, lookupVal_cons_neg _ _ _ (by simpa using hk),
          lookupVal_cons_neg _ _ _ hk]
        exact ih
      · rw [if_neg hb, lookupVal_cons_neg _ _ _ hk, lookupVal_cons_neg _ _ _ hk]
        exact ih

lemma lookup_append (m : List (String × TallyValue)) (kb k : String) (v : TallyValue)
    (hne : kb ≠ k) : lookupVal (m ++ [(kb, v)]) k = lookupVal m k := by
  induction m with
  | nil =>
    show lookupVal [(kb, v)] k = none
    rw [lookupVal_cons_neg _ _ _ (by simpa using hne)]
    rfl
  | cons q m ih =>
    rw [List.cons_append]
    by_cases hk : q.1 = k
    · rw [lookupVal_cons_pos _ _ _ hk, lookupVal_cons_pos _ _ _ hk]
    · rw [lookupVal_cons_neg _ _ _ hk, lookupVal_cons_neg _ _ _ hk, ih]

lemma lookup_append_self (m : List (String × TallyValue)) (k : String) (v : TallyValue)
    (hany : m.any (fun p => p.1 = k) = false) :
    lookupVal (m ++ [(k, v)]) k = some v := by
  induction m with
  | nil => exact lookupVal_cons_pos _ _ _ rfl
  | cons q m ih =>
    rw [List.any_cons] at hany
    have h1 : ¬ q.1 = k := by
      intro h
      rw [h] at hany
      simp at hany
    have h2 : m.any (fun p => p.1 = k) = false := (Bool.or_eq_false_iff.1 hany).2
    rw [List.cons_append, lookupVal_cons_neg _ _ _ h1]
    exact ih h2

lemma lookup_not_found (m : List (String × TallyValue)) (k : String)
    (hany : m.any (fun p => p.1 = k) = false) : lookupVal m k = none := by
  induction m with
  | nil => rfl
  | cons q m ih =>
    rw [List.any_cons] at hany
    have h1 : ¬ q.1 = k := by
      intro h
      rw [h] at hany
      simp at hany
    have h2 : m.any (fun p => p.1 = k) = false := (Bool.or_eq_false_iff.1 hany).2
    rw [lookupVal_cons_neg _ _ _ h1]
    exact ih h2

lemma lookup_isSome_of_any (m : List (String × TallyValue)) (k : String)
    (hany : m.any (fun p => p.1 = k) = true) : ∃ v, lookupVal m k = some v := by
  induction m with
  | nil => simp at hany
  | cons q m ih =>
    by_cases hk : q.1 = k
    · exact ⟨q.2, lookupVal_cons_pos _ _ _ hk⟩
    · rw [lookupVal_cons_neg _ _ _ hk]
      apply ih
      rw [List.any_cons] at hany
      rcases Bool.or_eq_true_iff.1 hany with h | h
      · exact absurd (by simpa using h) hk
      · exact h

lemma insertService_lookup_self (m : List (String × TallyValue)) (k : String)
    (hk : ¬ k ∈ protoProps) :
    lookupVal (insertService m k) k
      = some (match lookupVal m k with
              | none => TallyValue.num 1
              | some v => bumpTally v) := by
  have hpr : ¬ k = "__proto__" := fun h => hk (by rw [h]; decide)
  unfold insertService
  rw [if_neg hpr]
  by_cases hany : m.any (fun p => p.1 = k) = true
  · rw [if_pos hany, lookup_map_bump]
    obtain ⟨v, hv⟩ := lookup_isSome_of_any m k hany
    rw [hv]
    rfl
  · have hfalse : m.any (fun p => p.1 = k) = false := by
      cases h : m.any (fun p => p.1 = k)
      · rfl
      · exact absurd h hany
    rw [if_neg hany, if_neg hk, lookup_append_self m k _ hfalse,
      lookup_not_found m k hfalse]

lemma insertService_lookup_ne (m : List (String × TallyValue)) (kb k : String)
    (hne : kb ≠ k) : lookupVal (insertService m kb) k = lookupVal m k := by
  unfold insertService
  by_cases hpr : kb = "__proto__"
  · rw [if_pos hpr]
  · rw [if_neg hpr]
    by_cases hany : m.any (fun p => p.1 = kb) = true
    · rw [if_pos hany]
      exact lookup_map_bump_other m kb k hne
    · rw [if_neg hany]
      by_cases hp : kb ∈ protoProps
      · rw [if_pos hp]
        exact lookup_append m kb k _ hne
      · rw [if_neg hp]
        exact lookup_append m kb k _ hne

lemma bumpN_add (n : Nat) : ∀ j : Nat,
    bumpN n (some (TallyValue.num j)) = some (TallyValue.num (n + j)) := by
  induction n with
  | zero => intro j; simp [bumpN]
  | succ n ih =>
    intro j
    show bumpN n (some (bumpTally (TallyValue.num j))) = _
    rw [show bumpTally (TallyValue.num j) = TallyValue.num (j + 1) from rfl, ih]
    have : n + (j + 1) = n + 1 + j := by omega
    rw [this]

lemma bumpN_none (n : Nat) (h : 0 < n) : bumpN n none = some (TallyValue.num n) := by
  cases n with
  | zero => omega
  | succ n =>
    show bumpN n (some (TallyValue.num 1)) = _
    rw [bumpN_add]

lemma foldl_serviceStep_lookup (l : List Ticket) :
    ∀ (m : List (String × TallyValue)) (k : String), ¬ k ∈ protoProps →
      lookupVal (l.foldl serviceStep m) k
        = bumpN (l.countP (fun t => admissibleService t = some k)) (lookupVal m k) := by
  induction l with
  | nil => intro m k _; rfl
  | cons t l ih =>
    intro m k hk
    show lookupVal (l.foldl serviceStep (serviceStep m t)) k = _
    rw [ih _ k hk, List.countP_cons]
    unfold serviceStep
    cases ha : admissibleService t with
    | none => simp [ha]
    | some v =>
      by_cases hv : v = k
      · subst hv
        rw [insertService_lookup_self m v hk]
        simp only [ha, decide_eq_true_eq, eq_self_iff_true, if_true]
        cases hval : lookupVal m v with
        | none => rfl
        | some w => rfl
      · rw [insertService_lookup_ne m v k hv]
        simp [ha, hv]

lemma lookup_of_mem_nodup (m : List (String × TallyValue))
    (hnd : (m.map Prod.fst).Nodup) :
    ∀ p ∈ m, lookupVal m p.1 = some p.2 := by
  induction m with
  | nil => intro p hp; simp at hp
  | cons q m ih =>
    intro p hp
    simp only [List.map_cons, List.nodup_cons] at hnd
    rcases List.mem_cons.1 hp with rfl | hp2
    · exact lookupVal_cons_pos _ _ _ rfl
    · have hne : ¬ q.1 = p.1 := by
        intro he
        exact hnd.1 (he ▸ List.mem_map.2 ⟨p, hp2, rfl⟩)
      rw [lookupVal_cons_neg _ _ _ hne]
      exact ih hnd.2 p hp2

lemma mem_jsObjectEntries {α : Type} (m : List (String × α)) (p : String × α) :
    p ∈ jsObjectEntries m ↔ p ∈ m := by
  have hperm := List.perm_insertionSort
    (fun a b : String × α => arrayIndexVal a.1 ≤ arrayIndexVal b.1)
    (m.filter (fun p => isArrayIndexKey p.1))
  unfold jsObjectEntries
  rw [List.mem_append, hperm.mem_iff]
  constructor
  · rintro (h | h)
    · exact (List.mem_filter.1 h).1
    · exact (List.mem_filter.1 h).1
  · intro h
    by_cases hidx : isArrayIndexKey p.1
    · exact Or.inl (List.mem_filter.2 ⟨h, by simpa using hidx⟩)
    · exact Or.inr (List.mem_filter.2 ⟨h, by simpa using hidx⟩)

lemma seenStep_subset (acc : List String) (t : Ticket) :
    ∀ s ∈ acc, s ∈ seenStep acc t := by
  intro s hs
  unfold seenStep
  cases admissibleService t with
  | none => exact hs
  | some v => by_cases hv : v ∈ acc <;> simp [hv, hs]

lemma foldl_seenStep_subset (l : List Ticket) :
    ∀ acc, ∀ s ∈ acc, s ∈ l.foldl seenStep acc := by
  induction l with
  | nil => intro acc s hs; exact hs
  | cons t l ih => intro acc s hs; exact ih _ s (seenStep_subset acc t s hs)

lemma mem_firstSeen (tickets : List Ticket) (t : Ticket) (s : String)
    (ht : t ∈ tickets) (ha : admissibleService t = some s) :
    s ∈ firstSeenServices tickets := by
  have key : ∀ (l : List Ticket) (acc : List String), t ∈ l → s ∈ l.foldl seenStep acc := by
    intro l
    induction l with
    | nil => intro acc h; simp at h
    | cons x l ih =>
      intro acc hx
      rcases List.mem_cons.1 hx with rfl | hx2
      · have hstep : s ∈ seenStep acc t := by
          unfold seenStep
          rw [ha]
          by_cases hv : s ∈ acc <;> simp [hv]
        show s ∈ List.foldl seenStep (seenStep acc t) l
        exact foldl_seenStep_subset l (seenStep acc t) s hstep
      · exact ih _ hx2
  exact key tickets [] ht

/-- C4 (amended): a ticket whose `service_provided` is absent, `"null"`,
empty, or `__proto__` (whose assignment is a silent prototype-setter no-op)
contributes to no slice; the slice labels are pairwise distinct; a slice
whose label is not an `Object.prototype` property name carries exactly its
value's occurrence frequency (a prototype-named label instead carries a
concatenated string, see the counterexample); and the slices appear in
first-seen order of the distinct values PROVIDED no value is a JS
array-index string (the canonical decimal form of an integer below
2^32 - 1, enumerated first in ascending numeric order by the host) or an
`Object.prototype` property name. -/
theorem C4_service_distribution (tickets : List Ticket) :
    (∀ t : Ticket,
      (t.properties.service_provided = none
        ∨ t.properties.service_provided = some ("")
        ∨ t.properties.service_provided = some ("null")
        ∨ t.properties.service_provided = some ("__proto__")) →
      serviceCounts (tickets ++ [t]) = serviceCounts tickets)
    ∧ (serviceLabels tickets).Nodup
    ∧ (∀ p ∈ jsObjectEntries (serviceCounts tickets), ¬ p.1 ∈ protoProps →
        p.2 = TallyValue.num (tickets.countP (fun t => admissibleService t = some p.1)))
    ∧ ((∀ s ∈ firstSeenServices tickets,
          isArrayIndexKey s = false ∧ ¬ s ∈ protoProps) →
        serviceLabels tickets = firstSeenServices tickets) := by
  refine ⟨?_, ?_, ?_, ?_⟩
  · intro t hbad
    unfold serviceCounts
    rw [List.foldl_append]
    show serviceStep _ t = _
    unfold serviceStep
    rcases hbad with h | h | h | h
    · rw [show admissibleService t = none from by simp [admissibleService, h]]
    · rw [show admissibleService t = none from by simp [admissibleService, h]]
    · rw [show admissibleService t = none from by simp [admissibleService, h]]
    · rw [show admissibleService t = some ("__proto__") from by simp [admissibleService, h]]
      show insertService _ ("__proto__") = _
      unfold insertService
      rw [if_pos rfl]
  · have hs := List.perm_insertionSort
      (fun a b : String × TallyValue => arrayIndexVal a.1 ≤ arrayIndexVal b.1)
      ((serviceCounts tickets).filter (fun p => isArrayIndexKey p.1))
    have hperm : (jsObjectEntries (serviceCounts tickets)).Perm (serviceCounts tickets) := by
      unfold jsObjectEntries
      exact (hs.append_right _).trans (List.filter_append_perm _ _)
    have hmap := hperm.map Prod.fst
    show ((jsObjectEntries (serviceCounts tickets)).map Prod.fst).Nodup
    rw [hmap.nodup_iff]
    exact serviceCounts_keys_nodup tickets
  · intro p hp hnp
    have hpm : p ∈ serviceCounts tickets := (mem_jsObjectEntries _ p).1 hp
    have hl := lookup_of_mem_nodup _ (serviceCounts_keys_nodup tickets) p hpm
    have hc := foldl_serviceStep_lookup tickets [] p.1 hnp
    unfold serviceCounts at hl
    rw [hc] at hl
    rw [show lookupVal ([] : List (String × TallyValue)) p.1 = none from rfl] at hl
    cases hcnt : tickets.countP (fun t => admissibleService t = some p.1) with
    | zero =>
      rw [hcnt] at hl
      simp [bumpN] at hl
    | succ n =>
      rw [hcnt, bumpN_none _ (Nat.succ_pos n)] at hl
      injection hl with h2
      exact h2.symm
  · intro hcond
    have hnp : ∀ t ∈ tickets, ∀ s, admissibleService t = some s → ¬ s ∈ protoProps :=
      fun t ht s ha => (hcond s (mem_firstSeen tickets t s ht ha)).2
    have hfst : (serviceCounts tickets).map Prod.fst = firstSeenServices tickets := by
      have := foldl_serviceStep_fst tickets [] hnp
      simpa using this
    have h1 : (serviceCounts tickets).filter (fun p => isArrayIndexKey p.1) = [] := by
      rw [List.filter_eq_nil_iff]
      intro p hp
      have hm : p.1 ∈ firstSeenServices tickets := by
        rw [← hfst]
        exact List.mem_map.2 ⟨p, hp, rfl⟩
      simp [(hcond p.1 hm).1]
    have h2 : (serviceCounts tickets).filter (fun p => !(isArrayIndexKey p.1)) =
        serviceCounts tickets := by
      rw [List.filter_eq_self]
      intro p hp
      have hm : p.1 ∈ firstSeenServices tickets := by
        rw [← hfst]
        exact List.mem_map.2 ⟨p, hp, rfl⟩
      simp [(hcond p.1 hm).1]
    unfold serviceLabels jsObjectEntries
    rw [h1, h2]
    simpa using hfst

/-- C4 counterexample: service values `2` then `1` (array-index keys) come
out in ascending numeric order `1`, `2` instead of first-seen order; a
`toString` service reads the inherited function so its tally is a
concatenated string, not the number 1; and a `__proto__` service creates no
slice at all. -/
theorem C4_counterexample :
    firstSeenServices [cexSvcTwo, cexSvcOne] = [("2"), ("1")]
    ∧ serviceLabels [cexSvcTwo, cexSvcOne] = [("1"), ("2")]
    ∧ serviceLabels [cexSvcTwo, cexSvcOne] ≠ firstSeenServices [cexSvcTwo, cexSvcOne]
    ∧ serviceCounts [cexSvcToString] = [(("toString"), TallyValue.strVal ("toString") 1)]
    ∧ serviceCounts [cexSvcProto] = [] :=
  ⟨by decide, by decide, by decide, by decide, by decide⟩

/-- C4 witness: an empty-string service ticket leaves the tallies
unchanged. -/
theorem C4_witness :
    serviceCounts ([cexSvcTwo] ++ [wBadSvc]) = serviceCounts [cexSvcTwo] :=
  (C4_service_distribution [cexSvcTwo]).1 wBadSvc (Or.inr (Or.inl rfl))

/-- C7 witness: two tickets created before and one on the Sunday boundary
of a concrete week yield a count of exactly 1. -/
theorem C7_witness :
    (generateDashboardStats wNow [wWeekT1, wWeekT2, wWeekT3]).new_tickets_this_week = 1 :=
  (C7_new_tickets_this_week.2.2) wNow wWeekT1 wWeekT2 wWeekT3
    ((civilToEpochDay 2024 5 31) * msPerDay) ((civilToEpochDay 2024 6 1) * msPerDay)
    ((civilToEpochDay 2024 6 2) * msPerDay)
    (by decide) (by decide) (by decide) (by decide) (by decide) (by decide)

/-! ## Crisis-wish lemmas -/

lemma crisisEmit_ok (l : List CrisisItem) :
    ∀ (idx : Nat) (acc : ℚ),
      (∀ it ∈ l, it.date.isSome = true) →
      (∀ it ∈ l, 0 ≤ it.amount) →
      ∃ ts ds, crisisEmit idx acc l
          = Except.ok ((List.range l.length).map (fun i => idx + i + 1), ts, ds)
        ∧ List.Chain' (fun a b : ℚ => a ≤ b) (acc :: ts) := by
  induction l with
  | nil =>
    intro idx acc _ _
    exact ⟨[], [], rfl, List.chain'_singleton acc⟩
  | cons it rest ih =>
    intro idx acc hd hp
    obtain ⟨d, hdate⟩ := Option.isSome_iff_exists.1 (hd it (List.mem_cons_self it rest))
    obtain ⟨ts, ds, hrec, hchain⟩ := ih (idx + 1) (acc + it.amount)
      (fun x hx => hd x (List.mem_cons_of_mem it hx))
      (fun x hx => hp x (List.mem_cons_of_mem it hx))
    refine ⟨(acc + it.amount) :: ts, formatISODate d :: ds, ?_, ?_⟩
    · have hrange : (List.range (rest.length + 1)).map (fun i => idx + i + 1)
          = (idx + 1) :: (List.range rest.length).map (fun i => (idx + 1) + i + 1) := by
        rw [List.range_succ_eq_map, List.map_cons, List.map_map]
        simp only [List.cons.injEq]
        refine ⟨by simp, List.map_congr_left fun i _ => ?_⟩
        show idx + (i + 1) + 1 = idx + 1 + i + 1
        omega
      show crisisEmit idx acc (it :: rest) = _
      unfold crisisEmit
      rw [List.length_cons, hrange]
      simp only [hdate, hrec]
    · have h0 : (0 : ℚ) ≤ it.amount := hp it (List.mem_cons_self it rest)
      exact List.chain'_cons.2 ⟨by linarith, hchain⟩

/-- C3 (amended): provided every selected record's `created_at` parses to a
valid date (otherwise the emission loop throws, see C9) and every parsed
`crisis_wish` amount is non-negative, the emitted running counts are
exactly 1, 2, 3, … and the emitted running totals are monotonically
non-decreasing. -/
theorem C3_crisis_running_tallies (tickets : List Ticket)
    (hdates : ∀ it ∈ crisisData tickets, it.date.isSome = true)
    (hpos : ∀ it ∈ crisisData tickets, 0 ≤ it.amount) :
    ∃ ts ds, crisisEmit 0 0 (sortedCrisisData tickets)
        = Except.ok
            ((List.range (sortedCrisisData tickets).length).map (fun i => i + 1), ts, ds)
      ∧ List.Chain' (fun a b : ℚ => a ≤ b) ts := by
  have hmem : ∀ it ∈ sortedCrisisData tickets, it ∈ crisisData tickets := by
    intro it hit
    exact (List.perm_insertionSort crisisLe (crisisData tickets)).mem_iff.1 hit
  obtain ⟨ts, ds, hrec, hchain⟩ := crisisEmit_ok (sortedCrisisData tickets) 0 0
    (fun it hit => hdates it (hmem it hit)) (fun it hit => hpos it (hmem it hit))
  refine ⟨ts, ds, ?_, hchain.tail⟩
  rw [hrec]
  refine congrArg (fun x => Except.ok (x, ts, ds)) ?_
  refine List.map_congr_left fun i _ => ?_
  show 0 + i + 1 = i + 1
  omega

/-- C3 counterexample: amounts `3` then `-5` (both parsable, dates valid)
produce the running totals 3, -2, which is a decreasing sequence; the
emitted running-total series of the crisis chart is not monotonically
non-decreasing in general. -/
theorem C3_counterexample :
    crisisEmit 0 0 (sortedCrisisData [cexCrisisA, cexCrisisB]) =
      Except.ok ([1, 2], [(3 : ℚ), -2], [("2024-01-01"), ("2024-01-02")])
    ∧ ¬ List.Chain' (fun a b : ℚ => a ≤ b) [(3 : ℚ), -2] := by
  have h1 : parseJsDate ("2024-01-01") = some 1704067200000 := by decide
  have h2 : parseJsDate ("2024-01-02") = some 1704153600000 := by decide
  have hf1 : parseJsFloat ("3") = some 3 := by
    simp +decide [parseJsFloat, takeDigits, digitsToNat, digitVal]
  have hf2 : parseJsFloat ("-5") = some (-5) := by
    simp +decide [parseJsFloat, takeDigits, digitsToNat, digitVal]
  have hcd : crisisData [cexCrisisA, cexCrisisB] =
      [⟨some 1704067200000, 3⟩, ⟨some 1704153600000, -5⟩] := by
    simp +decide [crisisData, cexCrisisA, cexCrisisB, transform, h1, h2, hf1, hf2]
  have hsort : sortedCrisisData [cexCrisisA, cexCrisisB] =
      [⟨some 1704067200000, 3⟩, ⟨some 1704153600000, -5⟩] := by
    rw [sortedCrisisData, hcd]
    simp +decide [List.insertionSort, List.orderedInsert, crisisLe]
  have hfmt1 : formatISODate 1704067200000 = "2024-01-01" := by decide
  have hfmt2 : formatISODate 1704153600000 = "2024-01-02" := by decide
  constructor
  · rw [hsort]
    simp [crisisEmit, hfmt1, hfmt2]
    norm_num
  · simp [List.chain'_cons, List.chain'_singleton]
    norm_num

/-- C3 witness: the amended theorem instantiated at a one-record collection
with a valid date and a non-negative amount. -/
theorem C3_witness :
    ∃ ts ds, crisisEmit 0 0 (sortedCrisisData [cexCrisisA])
        = Except.ok
            ((List.range (sortedCrisisData [cexCrisisA]).length).map (fun i => i + 1), ts, ds)
      ∧ List.Chain' (fun a b : ℚ => a ≤ b) ts := by
  have h1 : parseJsDate ("2024-01-01") = some 1704067200000 := by decide
  have hf1 : parseJsFloat ("3") = some 3 := by
    simp +decide [parseJsFloat, takeDigits, digitsToNat, digitVal]
  have hcd : crisisData [cexCrisisA] = [⟨some 1704067200000, 3⟩] := by
    simp +decide [crisisData, cexCrisisA, transform, h1, hf1]
  exact C3_crisis_running_tallies [cexCrisisA]
    (by intro it hit; rw [hcd] at hit; simp at hit; subst hit; rfl)
    (by intro it hit; rw [hcd] at hit; simp at hit; subst hit; norm_num)

/-! ## Fetch failure and bad-date abort -/

/-- C8: every failure of the inbound fetch — a missing API key, a transport
error (whose message is propagated), or a non-success HTTP status (reported
as `HubSpot API error: <status> <statusText>`) — makes the GET handler
respond with `success = false`, the failure's message in `error`, and no
statistics or charts. -/
theorem C8_fetch_failure_response :
    (∀ pages, fetchHubSpotTickets none pages
        = Except.error ("HUBSPOT_API_KEY environment variable is not set"))
    ∧ (∀ msg rest, fetchPages (Except.error msg :: rest) = Except.error msg)
    ∧ (∀ (page : HttpPage) rest, page.ok = false →
        fetchPages (Except.ok page :: rest)
          = Except.error
              ("HubSpot API error: " ++ toString page.status ++ " " ++ page.statusText))
    ∧ (∀ (nowMs : Int) (apiKey : Option String) pages msg,
        fetchHubSpotTickets apiKey pages = Except.error msg →
        GET nowMs apiKey pages
          = { success := false, stats := none, charts := none,
              error := some msg, statusCode := 500 }) := by
  refine ⟨fun pages => rfl, fun msg rest => rfl, ?_, ?_⟩
  · intro page rest hok
    unfold fetchPages
    simp [hok]
  · intro nowMs apiKey pages msg hf
    unfold GET
    simp only [hf]

/-- C8 witness: the missing-credential failure at a concrete call. -/
theorem C8_witness :
    GET 0 none []
      = { success := false, stats := none, charts := none,
          error := some ("HUBSPOT_API_KEY environment variable is not set"),
          statusCode := 500 } :=
  (C8_fetch_failure_response.2.2.2) 0 none [] _ rfl

/-- C9: contrary to the per-record recovery contract, a ticket with a valid
`crisis_wish` amount but an unparsable `created_at` makes the chart builder
throw (`toISOString` on an invalid date), aborting the whole computation:
the GET response is a 500 failure rather than charts with that record
excluded. -/
theorem C9_bad_date_aborts_charts :
    generateCharts 0 [cexBadDate] = Except.error ("Invalid time value")
    ∧ GET 0 (some ("key")) [Except.ok ⟨true, 200, ("OK"), [badDateRaw], none⟩]
        = { success := false, stats := none, charts := none,
            error := some ("Invalid time value"), statusCode := 500 } := by
  constructor
  · decide
  · decide

end Dashboard
